import Mathlib

/-!
# Verification of the Bevy Remote Protocol (BRP) engine

A shallow embedding of the `bevy_remote` crate: the wire model (`brp.rs`),
the serialization codec (`data.rs`), the session dispatch loop (`session.rs`)
and the name-resolution cache (`lib.rs`, `RemoteCache`).

Reflected component values are opaque to the protocol engine; they are
modelled by the abstract type `DynValue`.  The entity/component store
(`bevy_ecs`, outside the shown sources) is modelled from the spec as a
`World` structure exposing exactly the operations the protocol code uses.
Rust `Result<T, BrpError>` becomes `BrpResult T`; a third outcome
`BrpResult.panics` models a Rust `panic!`/`unwrap` failure, which aborts
processing without producing a response.
-/

set_option autoImplicit false

/-- Reflected values are opaque to the protocol engine. -/
abbrev DynValue := Nat

/-- Entity ids (`bevy_ecs::entity::Entity`). -/
abbrev EntityId := Nat

/-- Request/response correlation ids (`BrpId = u64`). -/
abbrev BrpId := Nat

/-- `RemoteSerializationFormat` (called `RemoteComponentFormat` in the
`lib.rs` revision): the negotiated wire format of a session. -/
inductive RemoteSerializationFormat where
  | Json
  | Json5
  | Ron
  deriving DecidableEq, Repr

/-- `BrpSerializedData` from `brp.rs`: data in serialized form or a special value. -/
inductive BrpSerializedData where
  | Json (s : String)
  | Json5 (s : String)
  | Ron (s : String)
  | Default
  | Unserializable
  deriving DecidableEq, Repr

/-- `BrpError` from `brp.rs`: the protocol error taxonomy. -/
inductive BrpError where
  | EntityNotFound
  | ComponentNotFound (s : String)
  | ComponentAmbiguous (s : String)
  | ComponentInvalidAccess (s : String)
  | MissingTypeId (s : String)
  | MissingComponentId (s : String)
  | MissingTypeRegistration (s : String)
  | MissingReflect (s : String)
  | MissingDefault (s : String)
  | MissingPartialEq (s : String)
  | Serialization (s : String)
  | Deserialization (type_name : String) (error : String)
  | AssetNotFound (s : String)
  | InvalidRequest
  | InvalidEntity
  | InvalidQuery
  | InvalidWatermark
  | InternalError
  | Timeout
  | Unimplemented
  | Other (s : String)
  deriving DecidableEq, Repr

/-- Outcome of a fallible Rust computation: `Ok`, `Err`, or a `panic!`
(the latter produced by `.unwrap()` on a failed operation). -/
inductive BrpResult (α : Type) where
  | ok (a : α)
  | err (e : BrpError)
  | panics (msg : String)
  deriving DecidableEq, Repr

/-- `BrpPredicate` from `brp.rs`: the recursive boolean predicate tree.
`HashMap` payloads are modelled as association lists. -/
inductive BrpPredicate where
  | Always
  | All (ps : List BrpPredicate)
  | Any (ps : List BrpPredicate)
  | Not (p : BrpPredicate)
  | PartialEq (components : List (String × BrpSerializedData))

/-- `BrpQueryData` from `brp.rs`. -/
structure BrpQueryData where
  components : List String
  optional : List String
  has : List String

/-- `BrpQueryFilter` from `brp.rs`.  The Rust field `with` is a Lean keyword,
so it is capitalized here. -/
structure BrpQueryFilter where
  With : List String
  without : List String
  when : BrpPredicate

/-- `BrpQueryResult` from `brp.rs`: per-entity query output.  The three
`HashMap`s are modelled as association lists in insertion order. -/
structure BrpQueryResult where
  entity : EntityId
  components : List (String × BrpSerializedData)
  optional : List (String × Option BrpSerializedData)
  has : List (String × Bool)
  deriving DecidableEq, Repr

/-- `BrpRequestContent` from `brp.rs`: the closed set of request kinds. -/
inductive BrpRequestContent where
  | Ping
  | GetEntity (entity : EntityId) (data : BrpQueryData) (filter : BrpQueryFilter)
  | QueryEntities (data : BrpQueryData) (filter : BrpQueryFilter)
  | SpawnEntity (components : List (String × BrpSerializedData))
  | DestroyEntity (entity : EntityId)
  | InsertComponent (entity : EntityId) (components : List (String × BrpSerializedData))
  | RemoveComponent (entity : EntityId) (components : List String)
  | ReparentEntity (entity : EntityId) (parent : EntityId)
  | PollEntities (data : BrpQueryData) (filter : BrpQueryFilter) (watermark : Option Nat)
  | GetAsset (name : String) (handle : BrpSerializedData)
  | InsertAsset (name : String) (handle : BrpSerializedData) (asset : BrpSerializedData)

/-- `BrpRequest` from `brp.rs`. -/
structure BrpRequest where
  id : BrpId
  request : BrpRequestContent

/-- `BrpResponseContent` from `brp.rs`. -/
inductive BrpResponseContent where
  | Ok
  | Error (e : BrpError)
  | GetEntity (entity : BrpQueryResult)
  | QueryEntities (entities : List BrpQueryResult)
  | SpawnEntity (entity : EntityId)
  | Poll (entities : List BrpQueryResult) (watermark : Nat)
  | GetAsset (name : String) (handle : BrpSerializedData) (asset : BrpSerializedData)
  deriving DecidableEq, Repr

/-- `BrpResponse` from `brp.rs`. -/
structure BrpResponse where
  id : BrpId
  response : BrpResponseContent
  deriving DecidableEq, Repr

/-- `BrpResponse::new` from `brp.rs`. -/
def BrpResponse.new (id : BrpId) (response : BrpResponseContent) : BrpResponse :=
  { id := id, response := response }

/-- `BrpResponse::from_error` from `brp.rs`. -/
def BrpResponse.from_error (id : BrpId) (error : BrpError) : BrpResponse :=
  { id := id, response := BrpResponseContent.Error error }

mutual

/-- `BrpPredicate::iter` from `brp.rs`: the component names referenced
transitively by a predicate, in left-to-right order. -/
def BrpPredicate.iterNames : BrpPredicate → List String
  | .Always => []
  | .All ps => BrpPredicate.iterNamesList ps
  | .Any ps => BrpPredicate.iterNamesList ps
  | .Not p => p.iterNames
  | .PartialEq components => components.map Prod.fst

/-- Names referenced by a list of predicates (the `flat_map` in `BrpPredicate::iter`). -/
def BrpPredicate.iterNamesList : List BrpPredicate → List String
  | [] => []
  | p :: ps => p.iterNames ++ BrpPredicate.iterNamesList ps

end

/-- Association-list lookup, modelling `HashMap::get` keyed by strings. -/
def alistGet {α : Type} (k : String) : List (String × α) → Option α
  | [] => none
  | (k', v) :: rest => if k' = k then some v else alistGet k rest

/-- Association-list insert, modelling `HashMap::insert`: replaces the value
under an existing key, otherwise appends the new entry. -/
def alistInsert {α : Type} (k : String) (v : α) : List (String × α) → List (String × α)
  | [] => [(k, v)]
  | (k', v') :: rest =>
    if k' = k then (k, v) :: rest else (k', v') :: alistInsert k v rest

/-- List-as-set insert, modelling `HashSet::insert`. -/
def setInsert (k : String) (l : List String) : List String :=
  if k ∈ l then l else l ++ [k]

/-- `ComponentInfo` from `bevy_ecs` as used by the protocol code: a
component's internal id, full type-path name, and optional `TypeId`. -/
structure ComponentInfo where
  id : Nat
  name : String
  type_id : Option Nat
  deriving DecidableEq, Repr

/-- A `TypeRegistration` together with the type-data the protocol code
queries from it, and the format parsers/serializers it drives.
`json5Parse`/`ronParse` model the two-stage external deserializers: the
outer `Option` is `Deserializer::from_str` (which is fallible — the Rust
code calls `.unwrap()` on it), the inner `Except` is the actual
deserialization with its error message. `jsonParse` models
`serde_json::de::Deserializer::from_str` followed by deserialization;
construction there is infallible. -/
structure TypeRegistration where
  type_path : String
  reflect_from_ptr : Bool
  reflect_default : Option DynValue
  reflect_component : Bool
  reflect_handle : Option Nat
  reflect_asset : Bool
  reflectPartialEq : DynValue → DynValue → Option Bool
  applyOn : DynValue → DynValue → DynValue
  downcast_handle : DynValue → Option Nat
  jsonParse : String → Except String DynValue
  json5Parse : String → Option (Except String DynValue)
  ronParse : String → Option (Except String DynValue)

/-- Modelled from the spec: the external "world" collaborator (`bevy_ecs`,
not among the shown sources) exposing component enumeration, per-entity
component lookup by id, the type registry, asset storage, the reflection
serializer, and the name-resolution entry point used by the `session.rs`
revision (`component_id_for_name` and friends, whose bodies are also not
among the shown sources; per §4.2 resolution yields a component descriptor
or a distinct not-found/ambiguous error). -/
structure World where
  entities : List EntityId
  components : List ComponentInfo
  entityComponents : EntityId → Nat → Option DynValue
  registry : Nat → Option TypeRegistration
  registryByPath : String → Option TypeRegistration
  resolve : String → Except BrpError ComponentInfo
  assetGet : Nat → Nat → Option DynValue
  serializeValue : RemoteSerializationFormat → DynValue → Except String String
  componentIdOfType : Nat → Nat

/-- Modelled from the spec: `component_id_for_name` (session.rs revision,
body not among the shown sources) — resolve a name to its component id. -/
def component_id_for_name (w : World) (name : String) : Except BrpError Nat :=
  match w.resolve name with
  | .ok info => .ok info.id
  | .error e => .error e

/-- Modelled from the spec: `type_and_component_id_for_name` (used by
`data.rs`, body not among the shown sources) — resolve a name to its
`TypeId` and component id; a component without a `TypeId` is a
`MissingTypeId` error. -/
def type_and_component_id_for_name (w : World) (name : String) :
    Except BrpError (Nat × Nat) :=
  match w.resolve name with
  | .ok info =>
    match info.type_id with
    | some t => .ok (t, info.id)
    | none => .error (BrpError.MissingTypeId name)
  | .error e => .error e

/-- Modelled from the spec: `type_id_for_name` (used by
`data.rs::try_insert_component`, body not among the shown sources). -/
def type_id_for_name (w : World) (name : String) : Except BrpError Nat :=
  match w.resolve name with
  | .ok info =>
    match info.type_id with
    | some t => .ok t
    | none => .error (BrpError.MissingTypeId name)
  | .error e => .error e

/-- Modelled from the spec: `ReflectComponent::insert` through the world
collaborator — insert the component of the given type on an entity. -/
def World.insertByType (w : World) (t : Nat) (e : EntityId) (v : DynValue) : World :=
  let c := w.componentIdOfType t
  { w with
    entityComponents := fun e' c' =>
      if e' = e then
        if c' = c then some v else w.entityComponents e' c'
      else w.entityComponents e' c' }

/-- Modelled from the spec: `ReflectAsset::insert` through the world
collaborator — store an asset value under a handle. -/
def World.insertAsset (w : World) (t h : Nat) (v : DynValue) : World :=
  { w with
    assetGet := fun t' h' =>
      if t' = t then
        if h' = h then some v else w.assetGet t' h'
      else w.assetGet t' h' }

/-- `BrpSerializedData::try_deserialize` from `data.rs` (identical to
`deserialize_component` in the `lib.rs` revision): parse a wire payload
into a reflected value for the registered target type.  The session-format
mismatch branches only emit a warning in the source and are otherwise
behaviourally inert, so they do not appear here.  The `.unwrap()` on
`json5::Deserializer::from_str` / `ron::de::Deserializer::from_str` is a
panic when construction fails. -/
def BrpSerializedData.try_deserialize (self : BrpSerializedData)
    (reg : TypeRegistration) (component_name : String)
    (_serialization_format : RemoteSerializationFormat) : BrpResult DynValue :=
  match self with
  | .Json s =>
    match reg.jsonParse s with
    | .ok r => .ok r
    | .error e => .err (BrpError.Deserialization component_name e)
  | .Json5 s =>
    match reg.json5Parse s with
    | none => .panics "json5 deserializer construction failed"
    | some (.ok r) => .ok r
    | some (.error e) => .err (BrpError.Deserialization component_name e)
  | .Ron s =>
    match reg.ronParse s with
    | none => .panics "ron deserializer construction failed"
    | some (.ok r) => .ok r
    | some (.error e) => .err (BrpError.Deserialization component_name e)
  | .Default =>
    match reg.reflect_default with
    | none => .err (BrpError.MissingDefault component_name)
    | some v => .ok v
  | .Unserializable =>
    .err (BrpError.Deserialization component_name "Data is unserializable")

/-- `BrpSerializedData::try_from_reflect` from `data.rs`: serialize a
reflected value into the session's wire format. -/
def BrpSerializedData.try_from_reflect (w : World) (reflect : DynValue)
    (serialization_format : RemoteSerializationFormat) : BrpResult BrpSerializedData :=
  match serialization_format with
  | .Ron =>
    match w.serializeValue .Ron reflect with
    | .ok s => .ok (BrpSerializedData.Ron s)
    | .error e => .err (BrpError.Serialization e)
  | .Json5 =>
    match w.serializeValue .Json5 reflect with
    | .ok s => .ok (BrpSerializedData.Json5 s)
    | .error e => .err (BrpError.Serialization e)
  | .Json =>
    match w.serializeValue .Json reflect with
    | .ok s => .ok (BrpSerializedData.Json s)
    | .error e => .err (BrpError.Serialization e)

/-- `BrpSerializedData::try_from_entity_component` from `data.rs`:
serialize the current value of a named component on an entity. -/
def BrpSerializedData.try_from_entity_component (w : World) (entity : EntityId)
    (component_name : String)
    (serialization_format : RemoteSerializationFormat) : BrpResult BrpSerializedData :=
  match type_and_component_id_for_name w component_name with
  | .error e => .err e
  | .ok (type_id, comp_id) =>
    match w.registry type_id with
    | none => .err (BrpError.MissingTypeRegistration component_name)
    | some reg =>
      if !reg.reflect_from_ptr then .err (BrpError.MissingReflect component_name)
      else
        match w.entityComponents entity comp_id with
        | none => .err (BrpError.ComponentInvalidAccess component_name)
        | some v => BrpSerializedData.try_from_reflect w v serialization_format

/-- `BrpSerializedData::try_partial_eq_entity_component` from `data.rs`
(renamed here): deserialize the expected value and structurally compare it
with the entity's live component value.  A missing component yields
`Ok(false)`; an unsupported comparison is `MissingPartialEq`. -/
def BrpSerializedData.tryPartialEqEntityComponent (self : BrpSerializedData)
    (w : World) (entity : EntityId) (component_name : String)
    (serialization_format : RemoteSerializationFormat) : BrpResult Bool :=
  match type_and_component_id_for_name w component_name with
  | .error e => .err e
  | .ok (type_id, comp_id) =>
    match w.registry type_id with
    | none => .err (BrpError.MissingTypeRegistration component_name)
    | some reg =>
      if !reg.reflect_from_ptr then .err (BrpError.MissingReflect component_name)
      else
        match self.try_deserialize reg component_name serialization_format with
        | .err e => .err e
        | .panics m => .panics m
        | .ok reflected =>
          match w.entityComponents entity comp_id with
          | none => .ok false
          | some live =>
            match reg.reflectPartialEq reflected live with
            | some r => .ok r
            | none => .err (BrpError.MissingPartialEq component_name)

/-- `BrpSerializedData::try_insert_component` from `data.rs`: deserialize
the payload, build the component value from the type's default plus the
reflected data, and insert it on the entity. -/
def BrpSerializedData.try_insert_component (self : BrpSerializedData)
    (w : World) (entity : EntityId) (component_name : String)
    (serialization_format : RemoteSerializationFormat) : BrpResult World :=
  match type_id_for_name w component_name with
  | .error e => .err e
  | .ok type_id =>
    match w.registry type_id with
    | none => .err (BrpError.MissingTypeRegistration component_name)
    | some reg =>
      match self.try_deserialize reg component_name serialization_format with
      | .err e => .err e
      | .panics m => .panics m
      | .ok reflected =>
        match reg.reflect_default with
        | none => .err (BrpError.MissingDefault component_name)
        | some d =>
          if !reg.reflect_component then .err (BrpError.MissingReflect component_name)
          else .ok (w.insertByType type_id entity (reg.applyOn d reflected))

/-- `BrpSerializedData::try_from_asset` from `data.rs`: resolve the asset's
handle type by path, deserialize the handle, downcast it (an `.unwrap()`:
panic on failure) and serialize the stored asset value. -/
def BrpSerializedData.try_from_asset (w : World) (name : String)
    (handle : BrpSerializedData)
    (serialization_format : RemoteSerializationFormat) : BrpResult BrpSerializedData :=
  match w.registryByPath name with
  | none => .err (BrpError.MissingTypeRegistration name)
  | some reg =>
    match reg.reflect_handle with
    | none => .err (BrpError.AssetNotFound name)
    | some asset_type_id =>
      match w.registry asset_type_id with
      | none => .err (BrpError.MissingTypeRegistration name)
      | some asset_reg =>
        if !asset_reg.reflect_asset then .err (BrpError.MissingTypeRegistration name)
        else
          match handle.try_deserialize reg name serialization_format with
          | .err e => .err e
          | .panics m => .panics m
          | .ok reflected =>
            match reg.reflect_default with
            | none => .err (BrpError.MissingDefault name)
            | some d =>
              match reg.downcast_handle (reg.applyOn d reflected) with
              | none => .panics "downcast_handle_untyped failed"
              | some untyped_handle =>
                match w.assetGet asset_type_id untyped_handle with
                | none => .err (BrpError.AssetNotFound name)
                | some asset_reflect =>
                  BrpSerializedData.try_from_reflect w asset_reflect serialization_format

/-- The `PartialEq` loop of `try_process_predicate`: every listed component
must compare equal; short-circuits on the first `false`. -/
def try_process_eq (w : World) (fmt : RemoteSerializationFormat)
    (entity : EntityId) : List (String × BrpSerializedData) → BrpResult Bool
  | [] => .ok true
  | (component_name, component_value) :: rest =>
    match component_value.tryPartialEqEntityComponent w entity component_name fmt with
    | .ok true => try_process_eq w fmt entity rest
    | .ok false => .ok false
    | .err e => .err e
    | .panics m => .panics m

mutual

/-- `RemoteSession::try_process_predicate` from `session.rs`: recursive
evaluation of a predicate tree against one entity. -/
def try_process_predicate (w : World) (fmt : RemoteSerializationFormat)
    (entity : EntityId) : BrpPredicate → BrpResult Bool
  | .Always => .ok true
  | .All ps => try_process_all w fmt entity ps
  | .Any ps => try_process_any w fmt entity ps
  | .Not p =>
    match try_process_predicate w fmt entity p with
    | .ok b => .ok (!b)
    | .err e => .err e
    | .panics m => .panics m
  | .PartialEq components => try_process_eq w fmt entity components

/-- The `All` loop of `try_process_predicate`: left-to-right, short-circuits
on the first `false`. -/
def try_process_all (w : World) (fmt : RemoteSerializationFormat)
    (entity : EntityId) : List BrpPredicate → BrpResult Bool
  | [] => .ok true
  | p :: ps =>
    match try_process_predicate w fmt entity p with
    | .ok true => try_process_all w fmt entity ps
    | .ok false => .ok false
    | .err e => .err e
    | .panics m => .panics m

/-- The `Any` loop of `try_process_predicate`: left-to-right, short-circuits
on the first `true`. -/
def try_process_any (w : World) (fmt : RemoteSerializationFormat)
    (entity : EntityId) : List BrpPredicate → BrpResult Bool
  | [] => .ok false
  | p :: ps =>
    match try_process_predicate w fmt entity p with
    | .ok true => .ok true
    | .ok false => try_process_any w fmt entity ps
    | .err e => .err e
    | .panics m => .panics m

end

/-- The name-resolution loops of the `QueryBuilder` phase in
`process_get_or_query_request`: resolve each name in order, propagating the
first error. -/
def resolveIds (w : World) : List String → Except BrpError (List Nat)
  | [] => .ok []
  | n :: rest =>
    match component_id_for_name w n with
    | .error e => .error e
    | .ok cid =>
      match resolveIds w rest with
      | .error e => .error e
      | .ok cids => .ok (cid :: cids)

/-- Modelled from the spec: the dynamic query built by `QueryBuilder`
(`bevy_ecs`, not among the shown sources) matches an entity iff every
required (`ref_id`) and `with_id` component is present and every
`without_id` component is absent; `optional` terms do not filter. -/
def matchesQuery (w : World) (required withIds withoutIds : List Nat)
    (e : EntityId) : Bool :=
  required.all (fun c => (w.entityComponents e c).isSome) &&
    withIds.all (fun c => (w.entityComponents e c).isSome) &&
      withoutIds.all (fun c => (w.entityComponents e c).isNone)

/-- Modelled from the spec: the candidate iteration of
`process_get_or_query_request` — `query.get(world, entity)` for the
single-entity mode (empty when the entity is absent or does not match),
`query.iter(world)` for the query mode. -/
def queryCandidates (w : World) (required withIds withoutIds : List Nat) :
    Option EntityId → List EntityId
  | some e =>
    if w.entities.contains e && matchesQuery w required withIds withoutIds e then [e]
    else []
  | none => w.entities.filter (matchesQuery w required withIds withoutIds)

/-- The required-components loop of the per-entity pass: serialize each name
in `data.components`, propagating the first error (`?`). -/
def collectComponents (w : World) (fmt : RemoteSerializationFormat) (e : EntityId) :
    List String → List (String × BrpSerializedData) →
    BrpResult (List (String × BrpSerializedData))
  | [], acc => .ok acc
  | n :: rest, acc =>
    match BrpSerializedData.try_from_entity_component w e n fmt with
    | .ok s => collectComponents w fmt e rest (alistInsert n s acc)
    | .err er => .err er
    | .panics m => .panics m

/-- The optional-components loop of the per-entity pass: re-resolve each
name, then serialize it when present (`Some`) or record `None`. -/
def collectOptional (w : World) (fmt : RemoteSerializationFormat) (e : EntityId) :
    List String → List (String × Option BrpSerializedData) →
    BrpResult (List (String × Option BrpSerializedData))
  | [], acc => .ok acc
  | n :: rest, acc =>
    match component_id_for_name w n with
    | .error er => .err er
    | .ok cid =>
      if (w.entityComponents e cid).isSome then
        match BrpSerializedData.try_from_entity_component w e n fmt with
        | .ok s => collectOptional w fmt e rest (alistInsert n (some s) acc)
        | .err er => .err er
        | .panics m => .panics m
      else collectOptional w fmt e rest (alistInsert n none acc)

/-- The `has` loop of the per-entity pass: record a presence boolean per name. -/
def collectHas (w : World) (e : EntityId) :
    List String → List (String × Bool) → BrpResult (List (String × Bool))
  | [], acc => .ok acc
  | n :: rest, acc =>
    match component_id_for_name w n with
    | .error er => .err er
    | .ok cid => collectHas w e rest (alistInsert n (w.entityComponents e cid).isSome acc)

/-- The body of the candidate loop of `process_get_or_query_request` for one
surviving entity: build its `BrpQueryResult` (components skipped in
wildcard mode). -/
def buildQueryResult (w : World) (fmt : RemoteSerializationFormat)
    (data : BrpQueryData) (fetch_all_components : Bool) (e : EntityId) :
    BrpResult BrpQueryResult :=
  match
    (if fetch_all_components then .ok []
     else collectComponents w fmt e data.components []) with
  | .err er => .err er
  | .panics m => .panics m
  | .ok comps =>
    match collectOptional w fmt e data.optional [] with
    | .err er => .err er
    | .panics m => .panics m
    | .ok opts =>
      match collectHas w e data.has [] with
      | .err er => .err er
      | .panics m => .panics m
      | .ok hs => .ok { entity := e, components := comps, optional := opts, has := hs }

/-- The candidate loop of `process_get_or_query_request`: entities failing
the `when` predicate are skipped; any propagated error aborts the request. -/
def firstPass (w : World) (fmt : RemoteSerializationFormat) (data : BrpQueryData)
    (filter : BrpQueryFilter) (fetch_all_components : Bool) :
    List EntityId → BrpResult (List BrpQueryResult)
  | [] => .ok []
  | e :: rest =>
    match try_process_predicate w fmt e filter.when with
    | .err er => .err er
    | .panics m => .panics m
    | .ok false => firstPass w fmt data filter fetch_all_components rest
    | .ok true =>
      match buildQueryResult w fmt data fetch_all_components e with
      | .err er => .err er
      | .panics m => .panics m
      | .ok r =>
        match firstPass w fmt data filter fetch_all_components rest with
        | .err er => .err er
        | .panics m => .panics m
        | .ok rs => .ok (r :: rs)

/-- Which serialization errors the wildcard pass tolerates
(`session.rs:320-325`): these are recorded as `Unserializable` instead of
failing the request. -/
def caughtByWildcard : BrpError → Bool
  | .MissingTypeRegistration _ => true
  | .MissingReflect _ => true
  | .MissingTypeId _ => true
  | .Serialization _ => true
  | _ => false

/-- The inner loop of the wildcard (`fetch_all_components`) pass: walk every
component registered in the world, serialize the ones present on the
entity, and record `Unserializable` for tolerated failures. -/
def wildcardLoop (w : World) (fmt : RemoteSerializationFormat) (e : EntityId) :
    List ComponentInfo → List (String × BrpSerializedData) →
    BrpResult (List (String × BrpSerializedData))
  | [], acc => .ok acc
  | comp :: rest, acc =>
    if (w.entityComponents e comp.id).isSome then
      match BrpSerializedData.try_from_entity_component w e comp.name fmt with
      | .ok s => wildcardLoop w fmt e rest (alistInsert comp.name s acc)
      | .err er =>
        if caughtByWildcard er then
          wildcardLoop w fmt e rest (alistInsert comp.name BrpSerializedData.Unserializable acc)
        else .err er
      | .panics m => .panics m
    else wildcardLoop w fmt e rest acc

/-- The outer loop of the wildcard pass: rewrite each result's `components`
map from the entity's full component set. -/
def wildcardPass (w : World) (fmt : RemoteSerializationFormat) :
    List BrpQueryResult → BrpResult (List BrpQueryResult)
  | [] => .ok []
  | r :: rest =>
    match wildcardLoop w fmt r.entity w.components r.components with
    | .err er => .err er
    | .panics m => .panics m
    | .ok comps =>
      match wildcardPass w fmt rest with
      | .err er => .err er
      | .panics m => .panics m
      | .ok rs => .ok ({ r with components := comps } :: rs)

/-- The wildcard-mode test of `process_get_or_query_request`
(`data.components.len() == 1 && data.components[0] == "*"`). -/
def fetchAllComponents (data : BrpQueryData) : Bool :=
  match data.components with
  | [n] => n == "*"
  | _ => false

/-- The result-building core of `RemoteSession::process_get_or_query_request`
from `session.rs`: resolve every referenced name (builder phase), iterate
the candidates, filter by predicate, build per-entity results, and apply
the wildcard pass when requested. -/
def queryCore (w : World) (fmt : RemoteSerializationFormat) (data : BrpQueryData)
    (filter : BrpQueryFilter) (entity : Option EntityId) :
    BrpResult (List BrpQueryResult) :=
  match
    (if fetchAllComponents data then .ok []
     else resolveIds w data.components) with
  | .error er => .err er
  | .ok requiredIds =>
    match resolveIds w data.optional with
    | .error er => .err er
    | .ok _ =>
      match resolveIds w data.has with
      | .error er => .err er
      | .ok _ =>
        match resolveIds w filter.With with
        | .error er => .err er
        | .ok withIds =>
          match resolveIds w filter.without with
          | .error er => .err er
          | .ok withoutIds =>
            match resolveIds w filter.when.iterNames with
            | .error er => .err er
            | .ok _ =>
              match firstPass w fmt data filter (fetchAllComponents data)
                  (queryCandidates w requiredIds withIds withoutIds entity) with
              | .err er => .err er
              | .panics m => .panics m
              | .ok results =>
                if fetchAllComponents data then wildcardPass w fmt results
                else .ok results

/-- `RemoteSession::process_get_or_query_request` from `session.rs`: the
shared implementation of `GetEntity` and `QueryEntities`. -/
def process_get_or_query_request (w : World) (fmt : RemoteSerializationFormat)
    (id : BrpId) (data : BrpQueryData) (filter : BrpQueryFilter)
    (entity : Option EntityId) : BrpResult BrpResponse :=
  match queryCore w fmt data filter entity with
  | .ok results => .ok (BrpResponse.new id (BrpResponseContent.QueryEntities results))
  | .err er => .err er
  | .panics m => .panics m

/-- `RemoteSession::process_get_entity_request` from `session.rs` (identical
to `process_brp_get_request` in the `lib.rs` revision): run the query
restricted to the one candidate entity, then require exactly one result
(`Vec::pop().unwrap()` takes it). -/
def process_get_entity_request (w : World) (fmt : RemoteSerializationFormat)
    (id : BrpId) (data : BrpQueryData) (filter : BrpQueryFilter)
    (entity : EntityId) : BrpResult BrpResponse :=
  match process_get_or_query_request w fmt id data filter (some entity) with
  | .ok resp =>
    match resp.response with
    | .QueryEntities entities =>
      if entities.length ≠ 1 then .err BrpError.EntityNotFound
      else
        match entities.getLast? with
        | some r => .ok (BrpResponse.new id (BrpResponseContent.GetEntity r))
        | none => .panics "pop on empty Vec"
    | _ => .ok resp
  | other => other

/-- `RemoteSession::process_query_request` from `session.rs`. -/
def process_query_request (w : World) (fmt : RemoteSerializationFormat)
    (id : BrpId) (data : BrpQueryData) (filter : BrpQueryFilter) :
    BrpResult BrpResponse :=
  process_get_or_query_request w fmt id data filter none

/-- The component loop of `RemoteSession::process_insert_request`: insert
each entry in turn; an error stops the loop but keeps the world mutations
made so far. -/
def insertLoop (w : World) (fmt : RemoteSerializationFormat) (e : EntityId) :
    List (String × BrpSerializedData) → BrpResult Unit × World
  | [] => (.ok (), w)
  | (component_name, component) :: rest =>
    match component.try_insert_component w e component_name fmt with
    | .ok w' => insertLoop w' fmt e rest
    | .err er => (.err er, w)
    | .panics m => (.panics m, w)

/-- `RemoteSession::process_insert_request` from `session.rs`. -/
def process_insert_request (w : World) (fmt : RemoteSerializationFormat)
    (id : BrpId) (entity : EntityId)
    (components : List (String × BrpSerializedData)) :
    BrpResult BrpResponse × World :=
  if !(w.entities.contains entity) then (.err BrpError.EntityNotFound, w)
  else
    match insertLoop w fmt entity components with
    | (.ok _, w') => (.ok (BrpResponse.new id BrpResponseContent.Ok), w')
    | (.err er, w') => (.err er, w')
    | (.panics m, w') => (.panics m, w')

/-- `RemoteSession::process_get_asset_request` from `session.rs`. -/
def process_get_asset_request (w : World) (fmt : RemoteSerializationFormat)
    (id : BrpId) (name : String) (handle : BrpSerializedData) :
    BrpResult BrpResponse :=
  match BrpSerializedData.try_from_asset w name handle fmt with
  | .ok output =>
    .ok (BrpResponse.new id (BrpResponseContent.GetAsset name handle output))
  | .err er => .err er
  | .panics m => .panics m

/-- The body of `RemoteSession::process_insert_asset_request` from
`session.rs` up to the final response: resolve the handle type by path,
deserialize handle and asset, and store the asset value (the
`downcast_handle_untyped(..).unwrap()` is a panic on failure).  Returns the
mutated world. -/
def insert_asset_core (w : World) (fmt : RemoteSerializationFormat)
    (name : String) (handle data : BrpSerializedData) : BrpResult World :=
  match w.registryByPath name with
  | none => .err (BrpError.MissingTypeRegistration name)
  | some reg =>
    match reg.reflect_handle with
    | none => .err (BrpError.AssetNotFound name)
    | some asset_type_id =>
      match w.registry asset_type_id with
      | none => .err (BrpError.MissingTypeRegistration name)
      | some asset_reg =>
        let asset_name := asset_reg.type_path
        if !asset_reg.reflect_asset then .err (BrpError.MissingTypeRegistration name)
        else
          match handle.try_deserialize reg name fmt with
          | .err er => .err er
          | .panics m => .panics m
          | .ok reflected =>
            match reg.reflect_default with
            | none => .err (BrpError.MissingDefault name)
            | some d =>
              match reg.downcast_handle (reg.applyOn d reflected) with
              | none => .panics "downcast_handle_untyped failed"
              | some untyped_handle =>
                match data.try_deserialize asset_reg asset_name fmt with
                | .err er => .err er
                | .panics m => .panics m
                | .ok asset_reflected =>
                  .ok (w.insertAsset asset_type_id untyped_handle asset_reflected)

/-- `RemoteSession::process_insert_asset_request` from `session.rs`: run the
core and answer `Ok` with the request's id on success; an error or panic
leaves the world unchanged (the mutation is its last step). -/
def process_insert_asset_request (w : World) (fmt : RemoteSerializationFormat)
    (id : BrpId) (name : String) (handle data : BrpSerializedData) :
    BrpResult BrpResponse × World :=
  match insert_asset_core w fmt name handle data with
  | .ok w' => (.ok (BrpResponse.new id BrpResponseContent.Ok), w')
  | .err er => (.err er, w)
  | .panics m => (.panics m, w)

/-- `RemoteSession::process_request` from `session.rs`: dispatch one request
by kind; unsupported kinds are `Unimplemented`.  Returns the result
together with the (possibly mutated) world. -/
def process_request (w : World) (fmt : RemoteSerializationFormat)
    (request : BrpRequest) : BrpResult BrpResponse × World :=
  match request.request with
  | .Ping => (.ok (BrpResponse.new request.id BrpResponseContent.Ok), w)
  | .GetEntity entity data filter =>
    (process_get_entity_request w fmt request.id data filter entity, w)
  | .QueryEntities data filter =>
    (process_query_request w fmt request.id data filter, w)
  | .InsertComponent entity components =>
    process_insert_request w fmt request.id entity components
  | .GetAsset name handle =>
    (process_get_asset_request w fmt request.id name handle, w)
  | .InsertAsset name handle asset =>
    process_insert_asset_request w fmt request.id name handle asset
  | _ => (.err BrpError.Unimplemented, w)

/-- `RemoteSession::process` from `session.rs`, applied to the batch of
requests drained from the session's queue this tick: each request yields
its handler's response, or `BrpResponse::from_error(request.id, err)` on
failure, pushed in order onto the response queue.  A panic aborts the loop
(and the process) without emitting a response. -/
def processDrained (w : World) (fmt : RemoteSerializationFormat) :
    List BrpRequest → List BrpResponse × World
  | [] => ([], w)
  | request :: rest =>
    match process_request w fmt request with
    | (.ok response, w') =>
      let (rs, w'') := processDrained w' fmt rest
      (response :: rs, w'')
    | (.err er, w') =>
      let (rs, w'') := processDrained w' fmt rest
      (BrpResponse.from_error request.id er :: rs, w'')
    | (.panics _, w') => ([], w')

/-- Whether processing the drained batch hits a Rust panic (which would
abort the tick loop instead of answering). -/
def batchPanics (w : World) (fmt : RemoteSerializationFormat) :
    List BrpRequest → Bool
  | [] => false
  | request :: rest =>
    match process_request w fmt request with
    | (.panics _, _) => true
    | (_, w') => batchPanics w' fmt rest

/-- `RemoteCacheInternal` from `lib.rs`: the name-resolution cache state.
The two `HashMap`s are association lists, the `HashSet` a duplicate-free
list. -/
structure RemoteCacheInternal where
  components_by_name : List (String × ComponentInfo)
  components_by_short_name : List (String × ComponentInfo)
  ambiguous_short_names : List String
  deriving DecidableEq, Repr

/-- The per-component body of the registry scan in
`RemoteCache::update_components` (`lib.rs:103-123`): components whose long
or short name was requested-and-missing are inserted into both maps; a
short-name collision is flagged ambiguous before the (overwriting)
short-name insert. -/
def updateStep (missing : List String) (sn : String → String)
    (acc : RemoteCacheInternal) (comp : ComponentInfo) : RemoteCacheInternal :=
  let name := comp.name
  let short_name := sn name
  if missing.contains name || missing.contains short_name then
    let acc1 := { acc with components_by_name := alistInsert name comp acc.components_by_name }
    let acc2 :=
      if (alistGet short_name acc1.components_by_short_name).isSome then
        { acc1 with ambiguous_short_names := setInsert short_name acc1.ambiguous_short_names }
      else acc1
    { acc2 with components_by_short_name := alistInsert short_name comp acc2.components_by_short_name }
  else acc

/-- The registry scan loop of `RemoteCache::update_components`. -/
def updateLoop (missing : List String) (sn : String → String) :
    RemoteCacheInternal → List ComponentInfo → RemoteCacheInternal
  | acc, [] => acc
  | acc, comp :: rest => updateLoop missing sn (updateStep missing sn acc comp) rest

/-- `RemoteCache::update_components` from `lib.rs`: compute the set of
requested names missing from both maps; bail early if empty, else scan the
world's component registry once.  `sn` is `bevy_utils::get_short_name`
(modelled from the spec: the unqualified form of a type path; its body is
not among the shown sources). -/
def update_components (world_components : List ComponentInfo) (sn : String → String)
    (internal : RemoteCacheInternal) (component_names : List String) :
    RemoteCacheInternal :=
  let missing := component_names.filter (fun n =>
    (alistGet n internal.components_by_name).isNone &&
      (alistGet n internal.components_by_short_name).isNone)
  if missing.isEmpty then internal
  else updateLoop missing sn internal world_components

/-- `RemoteCache::component_by_name` from `lib.rs`: exact long-path match
first; else the ambiguity flag; else the short-path map; else not found. -/
def component_by_name (internal : RemoteCacheInternal) (name : String) :
    Except BrpError ComponentInfo :=
  match alistGet name internal.components_by_name with
  | some component => .ok component
  | none =>
    if name ∈ internal.ambiguous_short_names then
      .error (BrpError.ComponentAmbiguous name)
    else
      match alistGet name internal.components_by_short_name with
      | some component => .ok component
      | none => .error (BrpError.ComponentNotFound name)

/-! ## Helper lemmas -/

theorem alistGet_insert_ne {α : Type} (k k' : String) (v : α)
    (l : List (String × α)) (h : k' ≠ k) :
    alistGet k (alistInsert k' v l) = alistGet k l := by
  induction l with
  | nil => simp [alistInsert, alistGet, h]
  | cons hd tl ih =>
    obtain ⟨k0, v0⟩ := hd
    by_cases h0 : k0 = k'
    · subst h0
      simp [alistInsert, alistGet, h]
    · simp only [alistInsert, alistGet, if_neg h0]
      by_cases h1 : k0 = k
      · simp [alistGet, h1]
      · simp [alistGet, h1, ih]

theorem alistGet_insert_self {α : Type} (k : String) (v : α)
    (l : List (String × α)) :
    alistGet k (alistInsert k v l) = some v := by
  induction l with
  | nil => simp [alistInsert, alistGet]
  | cons hd tl ih =>
    obtain ⟨k0, v0⟩ := hd
    by_cases h0 : k0 = k
    · simp [alistInsert, alistGet, h0]
    · simp [alistInsert, alistGet, h0, ih]

theorem alistInsert_fresh {α : Type} (k : String) (v : α)
    (l : List (String × α)) (h : alistGet k l = none) :
    alistInsert k v l = l ++ [(k, v)] := by
  induction l with
  | nil => simp [alistInsert]
  | cons hd tl ih =>
    obtain ⟨k0, v0⟩ := hd
    by_cases h0 : k0 = k
    · simp [alistGet, h0] at h
    · simp only [alistGet, if_neg h0] at h
      simp [alistInsert, h0, ih h]

theorem alistGet_append {α : Type} (k : String) (l1 l2 : List (String × α)) :
    alistGet k (l1 ++ l2) =
      match alistGet k l1 with
      | some v => some v
      | none => alistGet k l2 := by
  induction l1 with
  | nil => simp [alistGet]
  | cons hd tl ih =>
    obtain ⟨k0, v0⟩ := hd
    by_cases h0 : k0 = k
    · simp [alistGet, h0]
    · simp [alistGet, h0, ih]

theorem setInsert_mem (k s : String) (l : List String) (h : s ∈ l) :
    s ∈ setInsert k l := by
  unfold setInsert
  split
  · exact h
  · exact List.mem_append_left _ h

theorem setInsert_self (k : String) (l : List String) : k ∈ setInsert k l := by
  unfold setInsert
  split
  · assumption
  · simp

/-! ## C5 -/

/-- C5: deserializing the `Unserializable` sentinel, for any target type
registration, any claimed type name and any session format, always returns
a `Deserialization` error — the sentinel is never accepted as client
input. -/
theorem c5_unserializable_always_rejected (reg : TypeRegistration)
    (component_name : String) (fmt : RemoteSerializationFormat) :
    BrpSerializedData.Unserializable.try_deserialize reg component_name fmt =
      .err (BrpError.Deserialization component_name "Data is unserializable") := rfl

/-! ## C7 -/

/-- C7: the predicate identity laws — `PartialEq` of an empty map is `true`,
`Not(Always)` is `false`, `All([])` is `true`, `Any([])` is `false` — and
`All`/`Any` evaluate their children left to right with short-circuiting
(the head is evaluated first; a decisive head result ends evaluation, and
only otherwise does evaluation continue with the remaining children). -/
theorem c7_predicate_laws :
    (∀ (w : World) (fmt : RemoteSerializationFormat) (e : EntityId),
      try_process_predicate w fmt e (.PartialEq []) = .ok true) ∧
    (∀ (w : World) (fmt : RemoteSerializationFormat) (e : EntityId),
      try_process_predicate w fmt e (.Not .Always) = .ok false) ∧
    (∀ (w : World) (fmt : RemoteSerializationFormat) (e : EntityId),
      try_process_predicate w fmt e (.All []) = .ok true) ∧
    (∀ (w : World) (fmt : RemoteSerializationFormat) (e : EntityId),
      try_process_predicate w fmt e (.Any []) = .ok false) ∧
    (∀ (w : World) (fmt : RemoteSerializationFormat) (e : EntityId)
      (p : BrpPredicate) (ps : List BrpPredicate),
      try_process_predicate w fmt e (.All (p :: ps)) =
        match try_process_predicate w fmt e p with
        | .ok true => try_process_predicate w fmt e (.All ps)
        | .ok false => .ok false
        | .err er => .err er
        | .panics m => .panics m) ∧
    (∀ (w : World) (fmt : RemoteSerializationFormat) (e : EntityId)
      (p : BrpPredicate) (ps : List BrpPredicate),
      try_process_predicate w fmt e (.Any (p :: ps)) =
        match try_process_predicate w fmt e p with
        | .ok true => .ok true
        | .ok false => try_process_predicate w fmt e (.Any ps)
        | .err er => .err er
        | .panics m => .panics m) := by
  refine ⟨?_, ?_, ?_, ?_, ?_, ?_⟩
  · intro w fmt e
    simp [try_process_predicate, try_process_eq]
  · intro w fmt e
    simp [try_process_predicate]
  · intro w fmt e
    simp [try_process_predicate, try_process_all]
  · intro w fmt e
    simp [try_process_predicate, try_process_any]
  · intro w fmt e p ps
    simp only [try_process_predicate, try_process_all]
  · intro w fmt e p ps
    simp only [try_process_predicate, try_process_any]

/-! ## C3 -/

/-- C3: name resolution order in `component_by_name` — an exact long-path
match wins (even when the looked-up name is flagged ambiguous); otherwise
an ambiguous short name is a distinct `ComponentAmbiguous` error; otherwise
an unambiguous short-path match succeeds; otherwise `ComponentNotFound`. -/
theorem c3_resolution_order (internal : RemoteCacheInternal) (name : String) :
    (∀ c, alistGet name internal.components_by_name = some c →
      component_by_name internal name = .ok c) ∧
    (alistGet name internal.components_by_name = none →
      name ∈ internal.ambiguous_short_names →
      component_by_name internal name = .error (BrpError.ComponentAmbiguous name)) ∧
    (∀ c, alistGet name internal.components_by_name = none →
      name ∉ internal.ambiguous_short_names →
      alistGet name internal.components_by_short_name = some c →
      component_by_name internal name = .ok c) ∧
    (alistGet name internal.components_by_name = none →
      name ∉ internal.ambiguous_short_names →
      alistGet name internal.components_by_short_name = none →
      component_by_name internal name = .error (BrpError.ComponentNotFound name)) := by
  refine ⟨?_, ?_, ?_, ?_⟩
  · intro c h
    simp [component_by_name, h]
  · intro h1 h2
    simp [component_by_name, h1, h2]
  · intro c h1 h2 h3
    simp [component_by_name, h1, h2, h3]
  · intro h1 h2 h3
    simp [component_by_name, h1, h2, h3]

/-- A long-path-only component, for the C3 witness cache. -/
def c3compA : ComponentInfo := { id := 0, name := "a::Foo", type_id := some 0 }

/-- A short-path component, for the C3 witness cache. -/
def c3compB : ComponentInfo := { id := 1, name := "b::Bar", type_id := some 1 }

/-- A concrete cache: `"Foo"` is both a long-path key and an ambiguous short
name, `"Bar"` an ambiguous short name, `"Baz"` an unambiguous short name. -/
def c3Cache : RemoteCacheInternal :=
  { components_by_name := [("Foo", c3compA)]
    components_by_short_name := [("Foo", c3compB), ("Bar", c3compB), ("Baz", c3compB)]
    ambiguous_short_names := ["Foo", "Bar"] }

theorem c3_resolution_order_witness :
    component_by_name c3Cache "Foo" = .ok c3compA ∧
    component_by_name c3Cache "Bar" = .error (BrpError.ComponentAmbiguous "Bar") ∧
    component_by_name c3Cache "Baz" = .ok c3compB ∧
    component_by_name c3Cache "Qux" = .error (BrpError.ComponentNotFound "Qux") :=
  ⟨(c3_resolution_order c3Cache "Foo").1 c3compA (by decide),
   (c3_resolution_order c3Cache "Bar").2.1 (by decide) (by decide),
   (c3_resolution_order c3Cache "Baz").2.2.1 c3compB (by decide) (by decide) (by decide),
   (c3_resolution_order c3Cache "Qux").2.2.2 (by decide) (by decide) (by decide)⟩

/-! ## C8 -/

/-- A registration whose JSON5/RON deserializer construction fails on the
malformed one-brace document — modelling that `json5::Deserializer::from_str`
(and `ron::de::Deserializer::from_str`) return `Err` on such input, which
the source `.unwrap()`s. -/
def c8FailReg : TypeRegistration :=
  { type_path := "T"
    reflect_from_ptr := true
    reflect_default := none
    reflect_component := false
    reflect_handle := none
    reflect_asset := false
    reflectPartialEq := fun _ _ => none
    applyOn := fun _ v => v
    downcast_handle := fun _ => none
    jsonParse := fun _ => Except.error "expected value"
    json5Parse := fun _ => none
    ronParse := fun _ => none }

/-- C8 (bug exhibit): with a JSON5 payload whose deserializer construction
fails, `try_deserialize` panics at the `.unwrap()` instead of returning a
`Deserialization` error — contradicting the claim that malformed client
input always yields a `Deserialization { type_name, error }` value.  (The
JSON path, whose construction is infallible, does return the error.) -/
theorem c8_malformed_json5_panics :
    BrpSerializedData.try_deserialize (.Json5 "\x7b") c8FailReg "T" .Json5 =
      .panics "json5 deserializer construction failed" ∧
    (∀ tn msg, BrpSerializedData.try_deserialize (.Json5 "\x7b") c8FailReg "T" .Json5 ≠
      .err (BrpError.Deserialization tn msg)) ∧
    BrpSerializedData.try_deserialize (.Json "\x7b") c8FailReg "T" .Json =
      .err (BrpError.Deserialization "T" "expected value") := by
  refine ⟨rfl, ?_, rfl⟩
  intro tn msg h
  simp [BrpSerializedData.try_deserialize, c8FailReg] at h

/-! ## C2 -/

/-- The specification's wording of `GetEntity` (§4.3): run `QueryEntities`
restricted to the single candidate entity, assert the result set has
exactly one member (else `EntityNotFound`), and unwrap it. -/
def getEntitySpec (w : World) (fmt : RemoteSerializationFormat) (id : BrpId)
    (data : BrpQueryData) (filter : BrpQueryFilter) (entity : EntityId) :
    BrpResult BrpResponse :=
  match process_get_or_query_request w fmt id data filter (some entity) with
  | .ok ⟨_rid, .QueryEntities entities⟩ =>
    match entities with
    | [r] => .ok (BrpResponse.new id (BrpResponseContent.GetEntity r))
    | _ => .err BrpError.EntityNotFound
  | .ok resp => .ok resp
  | .err er => .err er
  | .panics m => .panics m

/-- C2: `GetEntity` behaves exactly as `QueryEntities` restricted to the
single candidate entity followed by the exactly-one-member check —
returning that member on success and `EntityNotFound` whenever the
restricted query's result set has length ≠ 1. -/
theorem c2_get_entity_refines_query (w : World) (fmt : RemoteSerializationFormat)
    (id : BrpId) (data : BrpQueryData) (filter : BrpQueryFilter) (entity : EntityId) :
    process_get_entity_request w fmt id data filter entity =
      getEntitySpec w fmt id data filter entity := by
  unfold process_get_entity_request getEntitySpec
  cases h : process_get_or_query_request w fmt id data filter (some entity) with
  | ok resp =>
    obtain ⟨rid, content⟩ := resp
    cases content with
    | QueryEntities entities =>
      cases entities with
      | nil => simp
      | cons r rest =>
        cases rest with
        | nil => simp
        | cons r2 rest2 => simp
    | Ok => simp
    | Error e => simp
    | GetEntity r => simp
    | SpawnEntity e => simp
    | Poll es wm => simp
    | GetAsset n h a => simp
  | err er => simp
  | panics m => simp

/-! ## C6 -/

/-- C6: under an `Eq` predicate leaf, once the component name resolves, the
type is registered with reflection support and the expected value
deserializes, an entity that lacks the component compares as `Ok(false)`
(not an error), while a present component whose reflected comparison is
unsupported (`reflect_partial_eq` returns no answer) is the hard error
`MissingPartialEq`. -/
theorem c6_eq_predicate_missing_vs_unsupported (self : BrpSerializedData)
    (w : World) (e : EntityId) (name : String) (fmt : RemoteSerializationFormat)
    (info : ComponentInfo) (t : Nat) (reg : TypeRegistration) (v : DynValue)
    (hres : w.resolve name = .ok info) (ht : info.type_id = some t)
    (hreg : w.registry t = some reg) (hrfp : reg.reflect_from_ptr = true)
    (hde : self.try_deserialize reg name fmt = .ok v) :
    (w.entityComponents e info.id = none →
      self.tryPartialEqEntityComponent w e name fmt = .ok false) ∧
    (∀ live, w.entityComponents e info.id = some live →
      reg.reflectPartialEq v live = none →
      self.tryPartialEqEntityComponent w e name fmt =
        .err (BrpError.MissingPartialEq name)) := by
  constructor
  · intro habsent
    simp [BrpSerializedData.tryPartialEqEntityComponent,
      type_and_component_id_for_name, hres, ht, hreg, hrfp, hde, habsent]
  · intro live hlive hpeq
    simp [BrpSerializedData.tryPartialEqEntityComponent,
      type_and_component_id_for_name, hres, ht, hreg, hrfp, hde, hlive, hpeq]

/-! ## A small concrete world shared by the witnesses -/

/-- A fully supported component type registration (type id 0).  Its
structural comparison is unsupported (`reflect_partial_eq` gives no
answer), which the C6 witness exercises. -/
def regA : TypeRegistration :=
  { type_path := "a::A"
    reflect_from_ptr := true
    reflect_default := some 0
    reflect_component := true
    reflect_handle := none
    reflect_asset := false
    reflectPartialEq := fun _ _ => none
    applyOn := fun _ v => v
    downcast_handle := fun _ => none
    jsonParse := fun _ => Except.error "expected value"
    json5Parse := fun _ => none
    ronParse := fun _ => none }

/-- A registration without `ReflectFromPtr` (type id 1): serializing this
component fails with `MissingReflect`. -/
def regB : TypeRegistration :=
  { regA with type_path := "b::B", reflect_from_ptr := false }

/-- Component `a::A` (id 0, type id 0). -/
def compA : ComponentInfo := { id := 0, name := "a::A", type_id := some 0 }

/-- Component `b::B` (id 1, type id 1). -/
def compB : ComponentInfo := { id := 1, name := "b::B", type_id := some 1 }

/-- A world with one entity (id 1) carrying components `a::A` (value 0) and
`b::B` (value 1). -/
def testWorld : World :=
  { entities := [1]
    components := [compA, compB]
    entityComponents := fun e c =>
      if e = 1 then
        if c = 0 then some 0 else if c = 1 then some 1 else none
      else none
    registry := fun t => if t = 0 then some regA else if t = 1 then some regB else none
    registryByPath := fun _ => none
    resolve := fun n =>
      if n = "a::A" then .ok compA
      else if n = "b::B" then .ok compB
      else .error (BrpError.ComponentNotFound n)
    assetGet := fun _ _ => none
    serializeValue := fun _ _ => .ok "0"
    componentIdOfType := fun t => t }

theorem c6_eq_predicate_witness :
    BrpSerializedData.Default.tryPartialEqEntityComponent testWorld 2 "a::A" .Json =
      .ok false ∧
    BrpSerializedData.Default.tryPartialEqEntityComponent testWorld 1 "a::A" .Json =
      .err (BrpError.MissingPartialEq "a::A") :=
  ⟨(c6_eq_predicate_missing_vs_unsupported BrpSerializedData.Default testWorld 2 "a::A"
      .Json compA 0 regA 0 rfl rfl rfl rfl rfl).1 rfl,
   (c6_eq_predicate_missing_vs_unsupported BrpSerializedData.Default testWorld 1 "a::A"
      .Json compA 0 regA 0 rfl rfl rfl rfl rfl).2 0 rfl rfl⟩

/-! ## C10 -/

theorem insertLoop_fail_after (fmt : RemoteSerializationFormat) (e : EntityId)
    (nm : String) (dt : BrpSerializedData) (er : BrpError)
    (post : List (String × BrpSerializedData)) (w' : World)
    (hfail : dt.try_insert_component w' e nm fmt = .err er)
    (pre : List (String × BrpSerializedData)) :
    ∀ (w : World), insertLoop w fmt e pre = (.ok (), w') →
      insertLoop w fmt e (pre ++ (nm, dt) :: post) = (.err er, w') := by
  induction pre with
  | nil =>
    intro w hpre
    simp only [insertLoop, Prod.mk.injEq] at hpre
    obtain ⟨-, rfl⟩ := hpre
    simp [insertLoop, hfail]
  | cons hd tl ih =>
    intro w hpre
    obtain ⟨n0, d0⟩ := hd
    simp only [insertLoop] at hpre
    simp only [List.cons_append, insertLoop]
    cases h0 : d0.try_insert_component w e n0 fmt with
    | ok w0 =>
      rw [h0] at hpre
      exact ih w0 hpre
    | err er0 =>
      rw [h0] at hpre
      simp at hpre
    | panics m =>
      rw [h0] at hpre
      simp at hpre

/-- C10: `InsertComponent` is not atomic — when the entries before position
`j` insert successfully (producing world `w'`) and the entry at position
`j` fails, the whole request returns that error while the world stays at
`w'`: the components inserted by the earlier entries remain on the
entity. -/
theorem c10_insert_not_atomic (w w' : World) (fmt : RemoteSerializationFormat)
    (id : BrpId) (e : EntityId) (pre post : List (String × BrpSerializedData))
    (nm : String) (dt : BrpSerializedData) (er : BrpError)
    (hmem : w.entities.contains e = true)
    (hpre : insertLoop w fmt e pre = (.ok (), w'))
    (hfail : dt.try_insert_component w' e nm fmt = .err er) :
    process_insert_request w fmt id e (pre ++ (nm, dt) :: post) = (.err er, w') := by
  have hloop := insertLoop_fail_after fmt e nm dt er post w' hfail pre w hpre
  unfold process_insert_request
  rw [hmem, hloop]
  rfl

/-- `testWorld` after the successful insertion of component `a::A` with its
default value onto entity 1. -/
def testWorldAfterA : World := testWorld.insertByType 0 1 0

theorem c10_insert_not_atomic_witness :
    testWorld.entities.contains 1 = true ∧
    insertLoop testWorld .Json 1 [("a::A", .Default)] = (.ok (), testWorldAfterA) ∧
    BrpSerializedData.Unserializable.try_insert_component testWorldAfterA 1 "b::B" .Json =
      .err (BrpError.Deserialization "b::B" "Data is unserializable") ∧
    process_insert_request testWorld .Json 7 1
        [("a::A", .Default), ("b::B", .Unserializable)] =
      (.err (BrpError.Deserialization "b::B" "Data is unserializable"), testWorldAfterA) ∧
    testWorldAfterA.entityComponents 1 0 = some 0 :=
  ⟨rfl, rfl, rfl,
   c10_insert_not_atomic testWorld testWorldAfterA .Json 7 1 [("a::A", .Default)] []
     "b::B" .Unserializable (BrpError.Deserialization "b::B" "Data is unserializable")
     rfl rfl rfl,
   rfl⟩

/-! ## C1 -/

theorem pgoq_ok_shape (w : World) (fmt : RemoteSerializationFormat) (id : BrpId)
    (data : BrpQueryData) (filter : BrpQueryFilter) (entity : Option EntityId)
    (resp : BrpResponse)
    (h : process_get_or_query_request w fmt id data filter entity = .ok resp) :
    ∃ ents, resp = BrpResponse.new id (BrpResponseContent.QueryEntities ents) := by
  unfold process_get_or_query_request at h
  split at h
  · exact ⟨_, by injection h with h'; exact h'.symm⟩
  · exact absurd h (by simp)
  · exact absurd h (by simp)

theorem process_get_entity_ok_id (w : World) (fmt : RemoteSerializationFormat)
    (id : BrpId) (data : BrpQueryData) (filter : BrpQueryFilter) (entity : EntityId)
    (resp : BrpResponse)
    (h : process_get_entity_request w fmt id data filter entity = .ok resp) :
    resp.id = id := by
  unfold process_get_entity_request at h
  cases hq : process_get_or_query_request w fmt id data filter (some entity) with
  | ok resp0 =>
    obtain ⟨ents, rfl⟩ := pgoq_ok_shape w fmt id data filter (some entity) resp0 hq
    rw [hq] at h
    simp only [BrpResponse.new] at h
    split at h
    · exact absurd h (by simp)
    · split at h
      · injection h with h'
        rw [← h']
      · exact absurd h (by simp)
  | err er =>
    rw [hq] at h
    exact absurd h (by simp)
  | panics m =>
    rw [hq] at h
    exact absurd h (by simp)

theorem process_insert_ok_id (w : World) (fmt : RemoteSerializationFormat)
    (id : BrpId) (e : EntityId) (components : List (String × BrpSerializedData))
    (resp : BrpResponse) (w' : World)
    (h : process_insert_request w fmt id e components = (.ok resp, w')) :
    resp.id = id := by
  unfold process_insert_request at h
  split at h
  · exact absurd h (by simp)
  · split at h
    · simp only [Prod.mk.injEq] at h
      obtain ⟨h1, -⟩ := h
      injection h1 with h1
      rw [← h1]
      rfl
    · exact absurd h (by simp)
    · exact absurd h (by simp)

theorem process_get_asset_ok_id (w : World) (fmt : RemoteSerializationFormat)
    (id : BrpId) (name : String) (handle : BrpSerializedData) (resp : BrpResponse)
    (h : process_get_asset_request w fmt id name handle = .ok resp) :
    resp.id = id := by
  unfold process_get_asset_request at h
  split at h
  · injection h with h1
    rw [← h1]
    rfl
  · exact absurd h (by simp)
  · exact absurd h (by simp)

theorem process_insert_asset_ok_id (w : World) (fmt : RemoteSerializationFormat)
    (id : BrpId) (name : String) (handle data : BrpSerializedData)
    (resp : BrpResponse) (w' : World)
    (h : process_insert_asset_request w fmt id name handle data = (.ok resp, w')) :
    resp.id = id := by
  unfold process_insert_asset_request at h
  split at h
  · simp only [Prod.mk.injEq] at h
    obtain ⟨h1, -⟩ := h
    injection h1 with h1
    rw [← h1]
    rfl
  · exact absurd h (by simp)
  · exact absurd h (by simp)

theorem process_request_ok_id (w : World) (fmt : RemoteSerializationFormat)
    (request : BrpRequest) (resp : BrpResponse) (w' : World)
    (h : process_request w fmt request = (.ok resp, w')) :
    resp.id = request.id := by
  unfold process_request at h
  cases hr : request.request <;> rw [hr] at h
  case Ping =>
    simp only [Prod.mk.injEq] at h
    obtain ⟨h1, -⟩ := h
    injection h1 with h1
    rw [← h1]
    rfl
  case GetEntity entity data filter =>
    simp only [Prod.mk.injEq] at h
    exact process_get_entity_ok_id w fmt request.id data filter entity resp h.1
  case QueryEntities data filter =>
    simp only [Prod.mk.injEq] at h
    obtain ⟨ents, rfl⟩ := pgoq_ok_shape w fmt request.id data filter none resp h.1
    rfl
  case SpawnEntity components => simp at h
  case DestroyEntity entity => simp at h
  case InsertComponent entity components =>
    exact process_insert_ok_id w fmt request.id entity components resp w' h
  case RemoveComponent entity components => simp at h
  case ReparentEntity entity parent => simp at h
  case PollEntities data filter watermark => simp at h
  case GetAsset name handle =>
    simp only [Prod.mk.injEq] at h
    exact process_get_asset_ok_id w fmt request.id name handle resp h.1
  case InsertAsset name handle asset =>
    exact process_insert_asset_ok_id w fmt request.id name handle asset resp w' h

/-- C1: as long as no request in the drained batch hits a panic (i.e. the
tick loop keeps running), the dispatch loop emits exactly one response per
drained request, in order, and each response's id equals its request's id —
on the success path because every handler builds its response from the
request's id, and on the failure path because the error is wrapped via
`BrpResponse::from_error(request.id, err)`. -/
theorem c1_one_response_per_request_matching_id (w : World)
    (fmt : RemoteSerializationFormat) (reqs : List BrpRequest)
    (h : batchPanics w fmt reqs = false) :
    (processDrained w fmt reqs).1.map BrpResponse.id = reqs.map BrpRequest.id := by
  induction reqs generalizing w with
  | nil => simp [processDrained]
  | cons req rest ih =>
    unfold batchPanics at h
    unfold processDrained
    cases hp : process_request w fmt req with
    | mk res w' =>
      rw [hp] at h
      cases res with
      | ok resp =>
        have hid := process_request_ok_id w fmt req resp w' hp
        have ih' := ih w' h
        cases hd : processDrained w' fmt rest with
        | mk rs w'' =>
          rw [hd] at ih'
          simp only [hd, List.map_cons, hid, ih']
      | err er =>
        have ih' := ih w' h
        cases hd : processDrained w' fmt rest with
        | mk rs w'' =>
          rw [hd] at ih'
          simp only [hd, List.map_cons, ih']
          rfl
      | panics m => simp at h

/-- A two-request batch: a `Ping` (success path) and a `DestroyEntity`
(which dispatches to the `Unimplemented` failure path). -/
def c1Batch : List BrpRequest :=
  [{ id := 7, request := .Ping }, { id := 9, request := .DestroyEntity 1 }]

theorem c1_one_response_per_request_witness :
    batchPanics testWorld .Json c1Batch = false ∧
    (processDrained testWorld .Json c1Batch).1.map BrpResponse.id = [7, 9] :=
  ⟨rfl, c1_one_response_per_request_matching_id testWorld .Json c1Batch rfl⟩

/-! ## C4 -/

/-- Serialization outcomes the wildcard pass absorbs: success, or one of
the failures it records as `Unserializable`. -/
def okOrCaught : BrpResult BrpSerializedData → Bool
  | .ok _ => true
  | .err er => caughtByWildcard er
  | .panics _ => false

/-- The entry the wildcard pass produces for one registered component: none
when the component is absent from the entity, otherwise its serialized
value or the `Unserializable` sentinel. -/
def wildcardEntry (w : World) (fmt : RemoteSerializationFormat) (e : EntityId)
    (comp : ComponentInfo) : Option (String × BrpSerializedData) :=
  if (w.entityComponents e comp.id).isSome then
    some (comp.name,
      match BrpSerializedData.try_from_entity_component w e comp.name fmt with
      | .ok s => s
      | _ => BrpSerializedData.Unserializable)
  else none

/-- The full components map the wildcard pass produces for one entity. -/
def wildcardExpected (w : World) (fmt : RemoteSerializationFormat)
    (e : EntityId) : List (String × BrpSerializedData) :=
  w.components.filterMap (wildcardEntry w fmt e)

theorem wildcardLoop_spec (w : World) (fmt : RemoteSerializationFormat)
    (e : EntityId) :
    ∀ (comps : List ComponentInfo) (acc : List (String × BrpSerializedData)),
      (∀ comp ∈ comps, (w.entityComponents e comp.id).isSome = true →
        okOrCaught (BrpSerializedData.try_from_entity_component w e comp.name fmt) = true) →
      (comps.map ComponentInfo.name).Nodup →
      (∀ comp ∈ comps, alistGet comp.name acc = none) →
      wildcardLoop w fmt e comps acc =
        .ok (acc ++ comps.filterMap (wildcardEntry w fmt e)) := by
  intro comps
  induction comps with
  | nil =>
    intro acc _ _ _
    simp [wildcardLoop]
  | cons comp rest ih =>
    intro acc hser hnodup hfresh
    simp only [List.map_cons, List.nodup_cons] at hnodup
    obtain ⟨hname, hnodup'⟩ := hnodup
    have hf0 := hfresh comp (List.mem_cons_self comp rest)
    by_cases hpres : (w.entityComponents e comp.id).isSome = true
    · have hoc := hser comp (List.mem_cons_self comp rest) hpres
      have hacc : ∀ (v : BrpSerializedData),
          alistInsert comp.name v acc = acc ++ [(comp.name, v)] :=
        fun v => alistInsert_fresh comp.name v acc hf0
      have hfresh' : ∀ (v : BrpSerializedData), ∀ c ∈ rest,
          alistGet c.name (acc ++ [(comp.name, v)]) = none := by
        intro v c hc
        rw [alistGet_append]
        rw [hfresh c (List.mem_cons_of_mem comp hc)]
        have hne : comp.name ≠ c.name := by
          intro hEq
          exact hname (hEq ▸ List.mem_map_of_mem ComponentInfo.name hc)
        simp [alistGet, hne]
      cases hs : BrpSerializedData.try_from_entity_component w e comp.name fmt with
      | ok s =>
        rw [wildcardLoop, if_pos hpres, hs]
        dsimp only
        rw [hacc s]
        rw [ih (acc ++ [(comp.name, s)])
          (fun c hc hp => hser c (List.mem_cons_of_mem comp hc) hp) hnodup'
          (hfresh' s)]
        rw [List.append_assoc]
        simp only [List.singleton_append, List.filterMap_cons]
        rw [wildcardEntry, if_pos hpres, hs]
      | err er =>
        rw [hs] at hoc
        simp only [okOrCaught] at hoc
        rw [wildcardLoop, if_pos hpres, hs]
        dsimp only
        rw [if_pos hoc, hacc BrpSerializedData.Unserializable]
        rw [ih (acc ++ [(comp.name, BrpSerializedData.Unserializable)])
          (fun c hc hp => hser c (List.mem_cons_of_mem comp hc) hp) hnodup'
          (hfresh' BrpSerializedData.Unserializable)]
        rw [List.append_assoc]
        simp only [List.singleton_append, List.filterMap_cons]
        rw [wildcardEntry, if_pos hpres, hs]
      | panics m =>
        rw [hs] at hoc
        simp only [okOrCaught] at hoc
        simp at hoc
    · rw [wildcardLoop, if_neg hpres]
      rw [ih acc (fun c hc hp => hser c (List.mem_cons_of_mem comp hc) hp) hnodup'
        (fun c hc => hfresh c (List.mem_cons_of_mem comp hc))]
      simp only [List.filterMap_cons]
      rw [wildcardEntry, if_neg hpres]

theorem wildcardExpected_length (w : World) (fmt : RemoteSerializationFormat)
    (e : EntityId) :
    (wildcardExpected w fmt e).length =
      (w.components.filter (fun c => (w.entityComponents e c.id).isSome)).length := by
  unfold wildcardExpected
  induction w.components with
  | nil => simp
  | cons comp rest ih =>
    by_cases hpres : (w.entityComponents e comp.id).isSome = true
    · simp only [List.filterMap_cons, List.filter_cons, hpres, if_pos,
        wildcardEntry]
      simp [ih]
    · simp only [List.filterMap_cons, List.filter_cons, wildcardEntry]
      rw [if_neg hpres]
      simp only [Bool.not_eq_true] at hpres
      simp [hpres, ih]

theorem buildQueryResult_fetchAll (w : World) (fmt : RemoteSerializationFormat)
    (data : BrpQueryData) (e : EntityId) (r : BrpQueryResult)
    (h : buildQueryResult w fmt data true e = .ok r) :
    r.components = [] ∧ r.entity = e := by
  unfold buildQueryResult at h
  split at h
  · exact absurd h (by simp)
  · exact absurd h (by simp)
  case h_3 comps hcomps =>
    split at h
    · exact absurd h (by simp)
    · exact absurd h (by simp)
    · split at h
      · exact absurd h (by simp)
      · exact absurd h (by simp)
      · injection h with h1
        injection hcomps with h2
        rw [← h1, ← h2]
        exact ⟨rfl, rfl⟩

theorem firstPass_fetchAll (w : World) (fmt : RemoteSerializationFormat)
    (data : BrpQueryData) (filter : BrpQueryFilter) :
    ∀ (es : List EntityId) (rs : List BrpQueryResult),
      firstPass w fmt data filter true es = .ok rs →
      ∀ r ∈ rs, r.components = [] ∧ r.entity ∈ es := by
  intro es
  induction es with
  | nil =>
    intro rs h r hr
    simp only [firstPass] at h
    injection h with h1
    rw [← h1] at hr
    simp at hr
  | cons e rest ih =>
    intro rs h r hr
    rw [firstPass] at h
    cases hp : try_process_predicate w fmt e filter.when with
    | ok b =>
      rw [hp] at h
      cases b with
      | false =>
        obtain ⟨h1, h2⟩ := ih rs h r hr
        exact ⟨h1, List.mem_cons_of_mem e h2⟩
      | true =>
        simp only at h
        cases hb : buildQueryResult w fmt data true e with
        | ok r0 =>
          rw [hb] at h
          cases hf : firstPass w fmt data filter true rest with
          | ok rs0 =>
            rw [hf] at h
            injection h with h1
            rw [← h1] at hr
            rcases List.mem_cons.mp hr with h2 | h2
            · obtain ⟨hc, he⟩ := buildQueryResult_fetchAll w fmt data e r0 hb
              rw [h2]
              exact ⟨hc, he ▸ List.mem_cons_self e rest⟩
            · obtain ⟨hc, he⟩ := ih rs0 hf r h2
              exact ⟨hc, List.mem_cons_of_mem e he⟩
          | err er =>
            rw [hf] at h
            exact absurd h (by simp)
          | panics m =>
            rw [hf] at h
            exact absurd h (by simp)
        | err er =>
          rw [hb] at h
          exact absurd h (by simp)
        | panics m =>
          rw [hb] at h
          exact absurd h (by simp)
    | err er =>
      rw [hp] at h
      exact absurd h (by simp)
    | panics m =>
      rw [hp] at h
      exact absurd h (by simp)

theorem queryCandidates_subset (w : World) (required withIds withoutIds : List Nat)
    (entity : Option EntityId) :
    ∀ e ∈ queryCandidates w required withIds withoutIds entity, e ∈ w.entities := by
  intro e he
  cases entity with
  | some e0 =>
    simp only [queryCandidates] at he
    by_cases hcond :
        (w.entities.contains e0 && matchesQuery w required withIds withoutIds e0) = true
    · rw [if_pos hcond] at he
      simp only [List.mem_singleton] at he
      subst he
      have := (Bool.and_eq_true _ _).mp hcond
      simpa using this.1
    · rw [if_neg hcond] at he
      simp at he
  | none =>
    simp only [queryCandidates] at he
    exact (List.mem_filter.mp he).1

theorem wildcardPass_spec (w : World) (fmt : RemoteSerializationFormat)
    (hnodup : (w.components.map ComponentInfo.name).Nodup)
    (hser : ∀ e ∈ w.entities, ∀ comp ∈ w.components,
      (w.entityComponents e comp.id).isSome = true →
      okOrCaught (BrpSerializedData.try_from_entity_component w e comp.name fmt) = true) :
    ∀ rs : List BrpQueryResult,
      (∀ r ∈ rs, r.components = [] ∧ r.entity ∈ w.entities) →
      wildcardPass w fmt rs =
        .ok (rs.map fun r => { r with components := wildcardExpected w fmt r.entity }) := by
  intro rs
  induction rs with
  | nil =>
    intro _
    simp [wildcardPass]
  | cons r rest ih =>
    intro hrs
    obtain ⟨hc, he⟩ := hrs r (List.mem_cons_self r rest)
    rw [wildcardPass, hc]
    rw [wildcardLoop_spec w fmt r.entity w.components []
      (fun comp hcomp hp => hser r.entity he comp hcomp hp) hnodup
      (fun comp _ => rfl)]
    dsimp only
    rw [ih (fun r' hr' => hrs r' (List.mem_cons_of_mem r hr'))]
    simp [wildcardExpected]

theorem queryCore_fetchAll_inv (w : World) (fmt : RemoteSerializationFormat)
    (data : BrpQueryData) (filter : BrpQueryFilter) (entity : Option EntityId)
    (results : List BrpQueryResult)
    (hfa : fetchAllComponents data = true)
    (hq : queryCore w fmt data filter entity = .ok results) :
    ∃ (es : List EntityId) (results0 : List BrpQueryResult),
      (∀ e ∈ es, e ∈ w.entities) ∧
      firstPass w fmt data filter true es = .ok results0 ∧
      wildcardPass w fmt results0 = .ok results := by
  unfold queryCore at hq
  rw [hfa] at hq
  simp only [eq_self_iff_true, if_true] at hq
  cases h1 : resolveIds w data.optional with
  | error er =>
    simp only [h1] at hq
    exact absurd hq (by simp)
  | ok l1 =>
    simp only [h1] at hq
    cases h2 : resolveIds w data.has with
    | error er =>
      simp only [h2] at hq
      exact absurd hq (by simp)
    | ok l2 =>
      simp only [h2] at hq
      cases h3 : resolveIds w filter.With with
      | error er =>
        simp only [h3] at hq
        exact absurd hq (by simp)
      | ok withIds =>
        simp only [h3] at hq
        cases h4 : resolveIds w filter.without with
        | error er =>
          simp only [h4] at hq
          exact absurd hq (by simp)
        | ok withoutIds =>
          simp only [h4] at hq
          cases h5 : resolveIds w filter.when.iterNames with
          | error er =>
            simp only [h5] at hq
            exact absurd hq (by simp)
          | ok l5 =>
            simp only [h5] at hq
            cases h6 : firstPass w fmt data filter true
                (queryCandidates w [] withIds withoutIds entity) with
            | err er =>
              simp only [h6] at hq
              exact absurd hq (by simp)
            | panics m =>
              simp only [h6] at hq
              exact absurd hq (by simp)
            | ok results0 =>
              simp only [h6] at hq
              exact ⟨_, results0, queryCandidates_subset w [] withIds withoutIds entity,
                h6, hq⟩

/-- C4: in wildcard mode (`data.components = ["*"]`), every entity of a
successful response carries one `components` entry per component present
on it — its serialized value, or the `Unserializable` sentinel when the
serialization failure is of a kind the wildcard pass tolerates (the
tolerated kinds being exactly what `okOrCaught` accepts) — rather than the
request failing. -/
theorem c4_wildcard_full_introspection (w : World) (fmt : RemoteSerializationFormat)
    (id : BrpId) (data : BrpQueryData) (filter : BrpQueryFilter)
    (entity : Option EntityId)
    (hwild : data.components = ["*"])
    (hnodup : (w.components.map ComponentInfo.name).Nodup)
    (hser : ∀ e ∈ w.entities, ∀ comp ∈ w.components,
      (w.entityComponents e comp.id).isSome = true →
      okOrCaught (BrpSerializedData.try_from_entity_component w e comp.name fmt) = true) :
    ∀ resp, process_get_or_query_request w fmt id data filter entity = .ok resp →
      ∃ ents, resp = BrpResponse.new id (BrpResponseContent.QueryEntities ents) ∧
        ∀ r ∈ ents,
          r.components = wildcardExpected w fmt r.entity ∧
          r.components.length =
            (w.components.filter (fun c => (w.entityComponents r.entity c.id).isSome)).length := by
  intro resp hresp
  have hfa : fetchAllComponents data = true := by
    simp [fetchAllComponents, hwild]
  unfold process_get_or_query_request at hresp
  cases hq : queryCore w fmt data filter entity with
  | ok results =>
    rw [hq] at hresp
    injection hresp with h1
    obtain ⟨es, results0, hsub, hfp, hwp⟩ :=
      queryCore_fetchAll_inv w fmt data filter entity results hfa hq
    have hprops := firstPass_fetchAll w fmt data filter es results0 hfp
    rw [wildcardPass_spec w fmt hnodup hser results0
      (fun r hr => ⟨(hprops r hr).1, hsub r.entity (hprops r hr).2⟩)] at hwp
    injection hwp with h2
    refine ⟨results, h1.symm, ?_⟩
    intro r hr
    rw [← h2] at hr
    obtain ⟨r0, hr0, rfl⟩ := List.mem_map.mp hr
    exact ⟨rfl, wildcardExpected_length w fmt r0.entity⟩
  | err er =>
    rw [hq] at hresp
    exact absurd hresp (by simp)
  | panics m =>
    rw [hq] at hresp
    exact absurd hresp (by simp)

/-- The wildcard query of the C4 witness. -/
def c4Data : BrpQueryData := { components := ["*"], optional := [], has := [] }

/-- The trivial filter of the C4 witness. -/
def c4Filter : BrpQueryFilter := { With := [], without := [], when := .Always }

/-- Expected C4 witness result: entity 1 with its two components, the
second unserializable. -/
def c4Result : BrpQueryResult :=
  { entity := 1
    components := [("a::A", BrpSerializedData.Json "0"),
                   ("b::B", BrpSerializedData.Unserializable)]
    optional := []
    has := [] }

theorem c4_wildcard_witness :
    process_get_or_query_request testWorld .Json 5 c4Data c4Filter none =
      .ok (BrpResponse.new 5 (BrpResponseContent.QueryEntities [c4Result])) ∧
    (∃ ents, BrpResponse.new 5 (BrpResponseContent.QueryEntities [c4Result]) =
        BrpResponse.new 5 (BrpResponseContent.QueryEntities ents) ∧
      ∀ r ∈ ents,
        r.components = wildcardExpected testWorld .Json r.entity ∧
        r.components.length =
          (testWorld.components.filter
            (fun c => (testWorld.entityComponents r.entity c.id).isSome)).length) :=
  ⟨by decide,
   c4_wildcard_full_introspection testWorld .Json 5 c4Data c4Filter none rfl
     (by decide) (by decide)
     (BrpResponse.new 5 (BrpResponseContent.QueryEntities [c4Result])) (by decide)⟩

/-! ## C9 -/

theorem updateStep_by_name (missing : List String) (sn : String → String)
    (acc : RemoteCacheInternal) (comp : ComponentInfo) :
    (updateStep missing sn acc comp).components_by_name =
      if missing.contains comp.name || missing.contains (sn comp.name) then
        alistInsert comp.name comp acc.components_by_name
      else acc.components_by_name := by
  simp only [updateStep]
  by_cases hcond : (missing.contains comp.name || missing.contains (sn comp.name)) = true
  · rw [if_pos hcond, if_pos hcond]
    by_cases hsome : (alistGet (sn comp.name) acc.components_by_short_name).isSome = true
    · rw [if_pos hsome]
    · rw [if_neg hsome]
  · rw [if_neg hcond, if_neg hcond]

theorem updateStep_by_short (missing : List String) (sn : String → String)
    (acc : RemoteCacheInternal) (comp : ComponentInfo) :
    (updateStep missing sn acc comp).components_by_short_name =
      if missing.contains comp.name || missing.contains (sn comp.name) then
        alistInsert (sn comp.name) comp acc.components_by_short_name
      else acc.components_by_short_name := by
  simp only [updateStep]
  by_cases hcond : (missing.contains comp.name || missing.contains (sn comp.name)) = true
  · rw [if_pos hcond, if_pos hcond]
    by_cases hsome : (alistGet (sn comp.name) acc.components_by_short_name).isSome = true
    · rw [if_pos hsome]
    · rw [if_neg hsome]
  · rw [if_neg hcond, if_neg hcond]

theorem updateStep_ambiguous (missing : List String) (sn : String → String)
    (acc : RemoteCacheInternal) (comp : ComponentInfo) :
    (updateStep missing sn acc comp).ambiguous_short_names =
      if missing.contains comp.name || missing.contains (sn comp.name) then
        (if (alistGet (sn comp.name) acc.components_by_short_name).isSome then
          setInsert (sn comp.name) acc.ambiguous_short_names
        else acc.ambiguous_short_names)
      else acc.ambiguous_short_names := by
  simp only [updateStep]
  by_cases hcond : (missing.contains comp.name || missing.contains (sn comp.name)) = true
  · rw [if_pos hcond, if_pos hcond]
    by_cases hsome : (alistGet (sn comp.name) acc.components_by_short_name).isSome = true
    · rw [if_pos hsome, if_pos hsome]
    · rw [if_neg hsome, if_neg hsome]
  · rw [if_neg hcond, if_neg hcond]

theorem alistGet_isSome_insert {α : Type} (k k' : String) (v : α)
    (l : List (String × α)) (h : (alistGet k l).isSome = true) :
    (alistGet k (alistInsert k' v l)).isSome = true := by
  by_cases he : k' = k
  · subst he
    rw [alistGet_insert_self]
    rfl
  · rw [alistGet_insert_ne k k' v l he]
    exact h

theorem updateLoop_by_name_preserved (missing : List String) (sn : String → String)
    (k : String) (v : ComponentInfo)
    (hkmiss : missing.contains k = false)
    (hksn : missing.contains (sn k) = false) :
    ∀ (comps : List ComponentInfo) (acc : RemoteCacheInternal),
      alistGet k acc.components_by_name = some v →
      alistGet k (updateLoop missing sn acc comps).components_by_name = some v := by
  intro comps
  induction comps with
  | nil =>
    intro acc h
    exact h
  | cons comp rest ih =>
    intro acc h
    rw [updateLoop]
    apply ih
    rw [updateStep_by_name]
    split
    · next hcond =>
      have hne : comp.name ≠ k := by
        intro hEq
        rw [hEq] at hcond
        rw [hkmiss, hksn] at hcond
        simp at hcond
      rw [alistGet_insert_ne k comp.name comp _ hne]
      exact h
    · exact h

theorem updateLoop_ambiguous_mono (missing : List String) (sn : String → String)
    (s : String) :
    ∀ (comps : List ComponentInfo) (acc : RemoteCacheInternal),
      s ∈ acc.ambiguous_short_names →
      s ∈ (updateLoop missing sn acc comps).ambiguous_short_names := by
  intro comps
  induction comps with
  | nil =>
    intro acc h
    exact h
  | cons comp rest ih =>
    intro acc h
    rw [updateLoop]
    apply ih
    rw [updateStep_ambiguous]
    split
    · split
      · exact setInsert_mem _ s _ h
      · exact h
    · exact h

/-- The loop invariant behind the C9 correction: the short-name entry under
`s` still holds `v`, or `s` has been flagged ambiguous (and is still
present in the short-name map). -/
def ShortState (s : String) (v : ComponentInfo) (acc : RemoteCacheInternal) : Prop :=
  alistGet s acc.components_by_short_name = some v ∨
    (s ∈ acc.ambiguous_short_names ∧
      (alistGet s acc.components_by_short_name).isSome = true)

theorem updateStep_shortState (missing : List String) (sn : String → String)
    (s : String) (v : ComponentInfo) (acc : RemoteCacheInternal)
    (comp : ComponentInfo) (h : ShortState s v acc) :
    ShortState s v (updateStep missing sn acc comp) := by
  unfold ShortState
  rw [updateStep_by_short, updateStep_ambiguous]
  by_cases hcond :
      (missing.contains comp.name || missing.contains (sn comp.name)) = true
  · rw [if_pos hcond, if_pos hcond]
    by_cases hs : sn comp.name = s
    · subst hs
      have hpres : (alistGet (sn comp.name) acc.components_by_short_name).isSome = true := by
        rcases h with h | h
        · rw [h]
          rfl
        · exact h.2
      rw [if_pos hpres]
      right
      exact ⟨setInsert_self _ _, by rw [alistGet_insert_self]; rfl⟩
    · rw [alistGet_insert_ne s (sn comp.name) comp _ hs]
      rcases h with h | h
      · left
        exact h
      · right
        refine ⟨?_, h.2⟩
        split
        · exact setInsert_mem _ s _ h.1
        · exact h.1
  · rw [if_neg hcond, if_neg hcond]
    exact h

theorem updateLoop_shortState (missing : List String) (sn : String → String)
    (s : String) (v : ComponentInfo) :
    ∀ (comps : List ComponentInfo) (acc : RemoteCacheInternal),
      ShortState s v acc →
      ShortState s v (updateLoop missing sn acc comps) := by
  intro comps
  induction comps with
  | nil =>
    intro acc h
    exact h
  | cons comp rest ih =>
    intro acc h
    rw [updateLoop]
    exact ih _ (updateStep_shortState missing sn s v acc comp h)

/-- The cache invariant: every long name cached in the by-name map has its
short form cached in the by-short-name map.  It holds for the empty cache
and is preserved by every update (last conjunct of the C9 theorem). -/
def CacheInv (sn : String → String) (c : RemoteCacheInternal) : Prop :=
  ∀ k, (alistGet k c.components_by_name).isSome = true →
    (alistGet (sn k) c.components_by_short_name).isSome = true

theorem updateStep_cacheInv (missing : List String) (sn : String → String)
    (acc : RemoteCacheInternal) (comp : ComponentInfo) (h : CacheInv sn acc) :
    CacheInv sn (updateStep missing sn acc comp) := by
  intro k hk
  rw [updateStep_by_name] at hk
  rw [updateStep_by_short]
  by_cases hcond :
      (missing.contains comp.name || missing.contains (sn comp.name)) = true
  · rw [if_pos hcond] at hk
    rw [if_pos hcond]
    by_cases he : comp.name = k
    · subst he
      rw [alistGet_insert_self]
      rfl
    · rw [alistGet_insert_ne k comp.name comp _ he] at hk
      exact alistGet_isSome_insert (sn k) (sn comp.name) comp _ (h k hk)
  · rw [if_neg hcond] at hk
    rw [if_neg hcond]
    exact h k hk

theorem updateLoop_cacheInv (missing : List String) (sn : String → String) :
    ∀ (comps : List ComponentInfo) (acc : RemoteCacheInternal),
      CacheInv sn acc → CacheInv sn (updateLoop missing sn acc comps) := by
  intro comps
  induction comps with
  | nil =>
    intro acc h
    exact h
  | cons comp rest ih =>
    intro acc h
    rw [updateLoop]
    exact ih _ (updateStep_cacheInv missing sn acc comp h)

/-- A component whose short name (under `sn9`) is `"Foo"`. -/
def c9compA : ComponentInfo := { id := 0, name := "a::Foo", type_id := some 0 }

/-- A second, distinct component with the same short name `"Foo"`. -/
def c9compB : ComponentInfo := { id := 1, name := "b::Foo", type_id := some 1 }

/-- A short-name function under which `a::Foo` and `b::Foo` collide. -/
def sn9 : String → String := fun s =>
  if s = "a::Foo" then "Foo" else if s = "b::Foo" then "Foo" else s

/-- The cache after resolving `a::Foo` from the empty cache. -/
def c9cache1 : RemoteCacheInternal :=
  update_components [c9compA, c9compB] sn9
    { components_by_name := [], components_by_short_name := [],
      ambiguous_short_names := [] }
    ["a::Foo"]

/-- The cache after additionally resolving `b::Foo`. -/
def c9cache2 : RemoteCacheInternal :=
  update_components [c9compA, c9compB] sn9 c9cache1 ["b::Foo"]

/-- C9 (counterexample): the claim "once a key is written its value is never
replaced" is false for the by-short-name map — after the first update the
key `"Foo"` holds `a::Foo`'s descriptor, and the second update replaces it
with `b::Foo`'s. -/
theorem c9_counterexample_short_entry_replaced :
    alistGet "Foo" c9cache1.components_by_short_name = some c9compA ∧
    alistGet "Foo" c9cache2.components_by_short_name = some c9compB ∧
    c9compA ≠ c9compB := by decide

/-- C9 (amended): under the cache invariant, an update never replaces an
entry already present in the by-name map; the ambiguous set only grows; a
by-short-name entry may be replaced, but only with its key flagged
ambiguous in the resulting cache; and the invariant is preserved, so these
properties hold along any sequence of updates from the empty cache. -/
theorem c9_cache_append_only_amended (world_components : List ComponentInfo)
    (sn : String → String) (internal : RemoteCacheInternal)
    (component_names : List String) (hinv : CacheInv sn internal) :
    (∀ k v, alistGet k internal.components_by_name = some v →
      alistGet k (update_components world_components sn internal
        component_names).components_by_name = some v) ∧
    (∀ s, s ∈ internal.ambiguous_short_names →
      s ∈ (update_components world_components sn internal
        component_names).ambiguous_short_names) ∧
    (∀ s v v', alistGet s internal.components_by_short_name = some v →
      alistGet s (update_components world_components sn internal
        component_names).components_by_short_name = some v' →
      v' ≠ v →
      s ∈ (update_components world_components sn internal
        component_names).ambiguous_short_names) ∧
    CacheInv sn (update_components world_components sn internal component_names) := by
  simp only [update_components]
  by_cases hempty : (component_names.filter (fun n =>
      (alistGet n internal.components_by_name).isNone &&
        (alistGet n internal.components_by_short_name).isNone)).isEmpty = true
  · rw [if_pos hempty]
    refine ⟨fun k v h => h, fun s h => h, ?_, hinv⟩
    intro s v v' h1 h2 hne
    rw [h1] at h2
    injection h2 with h2
    exact absurd h2.symm hne
  · rw [if_neg hempty]
    refine ⟨?_, ?_, ?_, ?_⟩
    · intro k v h
      apply updateLoop_by_name_preserved _ sn k v ?_ ?_ _ _ h
      · by_contra hc
        simp only [Bool.not_eq_false] at hc
        have hk := List.elem_iff.mp hc
        have hcond := (List.mem_filter.mp hk).2
        rw [Bool.and_eq_true] at hcond
        rw [h] at hcond
        simp at hcond
      · by_contra hc
        simp only [Bool.not_eq_false] at hc
        have hk := List.elem_iff.mp hc
        have hcond := (List.mem_filter.mp hk).2
        rw [Bool.and_eq_true] at hcond
        have hsome : (alistGet k internal.components_by_name).isSome = true := by
          rw [h]
          rfl
        have hshort := hinv k hsome
        have h2 : alistGet (sn k) internal.components_by_short_name = none :=
          Option.isNone_iff_eq_none.mp hcond.2
        rw [h2] at hshort
        simp at hshort
    · intro s h
      exact updateLoop_ambiguous_mono _ sn s _ _ h
    · intro s v v' h1 h2 hne
      have hstate := updateLoop_shortState
        (component_names.filter (fun n =>
          (alistGet n internal.components_by_name).isNone &&
            (alistGet n internal.components_by_short_name).isNone))
        sn s v world_components internal (Or.inl h1)
      rcases hstate with hst | hst
      · rw [h2] at hst
        injection hst with hst
        exact absurd hst hne
      · exact hst.1
    · exact updateLoop_cacheInv _ sn _ _ hinv

theorem c9_cache1_inv : CacheInv sn9 c9cache1 := by
  intro k hk
  have h1 : c9cache1 =
      { components_by_name := [("a::Foo", c9compA)]
        components_by_short_name := [("Foo", c9compA)]
        ambiguous_short_names := [] } := by decide
  rw [h1] at hk ⊢
  by_cases he : "a::Foo" = k
  · subst he
    decide
  · simp only [alistGet, if_neg he] at hk
    simp [alistGet] at hk

theorem c9_cache_append_only_witness :
    alistGet "a::Foo" c9cache2.components_by_name = some c9compA ∧
    "Foo" ∈ c9cache2.ambiguous_short_names :=
  have h := c9_cache_append_only_amended [c9compA, c9compB] sn9 c9cache1
    ["b::Foo"] c9_cache1_inv
  ⟨h.1 "a::Foo" c9compA (by decide),
   h.2.2.1 "Foo" c9compA c9compB (by decide) (by decide) (by decide)⟩
